import Mathlib

/-!
# Goods4Goods — trade lifecycle and messaging coordination, shallow embedding

This file embeds the client-side data operations of the Goods4Goods barter
app (React Native over a Postgres-backed REST layer) as pure Lean functions
over an explicit database state, and proves/refutes the frozen claims about
the trade-request state machine, the conversation/messaging coordinator, the
discovery feed and the friendship flow.

Row types follow `src/types/database.ts`; operations are translated from the
components that issue the queries (`MessagesList.tsx`, `SwipeCards.tsx`,
`MyItems`/`TradeRequests.tsx`, `ChatScreen`, `FriendSearch`).  Timestamps are
modelled as a single logical clock `now : Nat`; generated row ids are drawn
from a counter `next_id`.  Status enumerations are kept as the string
literals the client compares against.
-/

namespace Goods4Goods

/-- Item row (`types/database.ts` `items.Row`, plus the `status` column the
client reads and writes: "available" | "unavailable" | "traded").  Display
fields not consulted by any embedded operation (description, condition,
image urls, timestamps) are omitted. -/
structure Item where
  id : String
  user_id : String
  title : String
  estimated_value : Int
  is_available : Bool
  status : String
deriving Repr, DecidableEq

/-- Trade request row (`types/database.ts` `trade_requests.Row`);
`status` ranges over "pending" | "accepted" | "declined" | "completed". -/
structure TradeRequest where
  id : String
  requester_id : String
  requester_item_id : String
  target_user_id : String
  target_item_id : String
  status : String
deriving Repr, DecidableEq

/-- Conversation row (`types/database.ts` `conversations.Row`). -/
structure Conversation where
  id : String
  user1_id : String
  user2_id : String
  last_message_at : Nat
deriving Repr, DecidableEq

/-- Message row (`types/database.ts` `messages.Row`). -/
structure Message where
  id : String
  conversation_id : String
  sender_id : String
  content : String
  is_read : Bool
  created_at : Nat
deriving Repr, DecidableEq

/-- Per-user suppression marker (`hidden_conversations` table read in
`MessagesList.loadConversations`). -/
structure HiddenConversation where
  conversation_id : String
  user_id : String
deriving Repr, DecidableEq

/-- Friendship row (`types/database.ts` `friendships.Row`);
`status` ranges over "pending" | "accepted" | "declined" | "blocked". -/
structure Friendship where
  id : String
  requester_id : String
  addressee_id : String
  status : String
deriving Repr, DecidableEq

/-- The backing data store: the six logical tables of the app, plus a
fresh-id counter and the current logical time. -/
structure DB where
  items : List Item
  trade_requests : List TradeRequest
  conversations : List Conversation
  messages : List Message
  hidden_conversations : List HiddenConversation
  friendships : List Friendship
  next_id : Nat
  now : Nat
deriving Repr, DecidableEq

/-- Fresh row id for an insert (the backend generates uuids; we draw from
the counter). -/
def freshId (db : DB) : String :=
  "row-" ++ toString db.next_id

/-! ## Messaging coordinator -/

/-- Unread count of a conversation for a viewer, as computed in
`MessagesList.loadConversations` (src/components/MessagesList.tsx:205-210):
messages of the conversation with `is_read = false` and `sender_id ≠`
viewer. -/
def unreadCount (db : DB) (conversationId viewer : String) : Nat :=
  (db.messages.filter (fun m =>
    m.conversation_id == conversationId && m.is_read == false
      && m.sender_id != viewer)).length

/-- `markMessagesAsRead` from `ChatScreen` (src/unnamed/part_006:248-259):
update `is_read := true` on every message of the conversation with
`is_read = false` and `sender_id ≠` the session user. -/
def markMessagesAsRead (db : DB) (conversationId sessionUser : String) : DB :=
  { db with messages := db.messages.map (fun m =>
      if m.conversation_id == conversationId && m.is_read == false
          && m.sender_id != sessionUser
      then { m with is_read := true } else m) }

/-- Modelled from the spec: the database function
`unhide_conversation_for_user` invoked by
`MessagesList.createOrGetConversation` (src/components/MessagesList.tsx:507)
is not in the repository sources; per spec §4.3 re-engagement deletes the
calling account's `HiddenConversation` marker for the conversation. -/
def unhideConversationForUser (db : DB) (conversationId userId : String) : DB :=
  { db with hidden_conversations := db.hidden_conversations.filter (fun h =>
      !(h.conversation_id == conversationId && h.user_id == userId)) }

/-- Modelled from the spec: the database function
`hide_conversation_for_user` invoked by `MessagesList.hideConversation`
(src/components/MessagesList.tsx:632) is not in the repository sources; per
spec §4.3 it upserts a `HiddenConversation` marker for the account without
deleting any `Message` or `Conversation` row. -/
def hideConversationForUser (db : DB) (conversationId userId : String) : DB :=
  if db.hidden_conversations.any (fun h =>
      h.conversation_id == conversationId && h.user_id == userId)
  then db
  else { db with hidden_conversations :=
      db.hidden_conversations ++ [⟨conversationId, userId⟩] }

/-- `hideConversation` from `MessagesList`
(src/components/MessagesList.tsx:624-676): its database effect is the
`hide_conversation_for_user` call (the rest is a read-back verification and
local-state refresh). -/
def hideConversation (db : DB) (conversationId sessionUser : String) : DB :=
  hideConversationForUser db conversationId sessionUser

/-- A `messages` insert as issued by `ChatScreen.sendMessage` and
`MessagesList.sendAutomaticMessage`: the row carries the schema default
`is_read = false`.  The client never writes `conversations.last_message_at`;
the touch of the conversation's last-activity timestamp is Modelled from the
spec (§4.3 `sendMessage` "updates the conversation's last-activity
timestamp"), standing in for backend SQL that is not in the repository
sources. -/
def insertMessage (db : DB) (conversationId sender content : String) : DB :=
  { db with
    messages := db.messages ++ [⟨freshId db, conversationId, sender, content, false, db.now⟩],
    conversations := db.conversations.map (fun c =>
      if c.id == conversationId then { c with last_message_at := db.now } else c),
    next_id := db.next_id + 1 }

/-- JavaScript `String.prototype.trim`: strip whitespace from both ends of
the string (structural model over the character list). -/
def jsTrim (s : String) : String :=
  String.mk
    (((s.data.dropWhile Char.isWhitespace).reverse.dropWhile
      Char.isWhitespace).reverse)

/-- `sendMessage` from `ChatScreen` (src/unnamed/part_006:269-292): if the
trimmed text is empty nothing happens (early return, no insert and no
error); otherwise the trimmed text is inserted as a new message.  The
1000-character bound is enforced by the input widget (`maxLength` on the
text field, src/unnamed/part_006:395), not by this function. -/
def sendMessage (db : DB) (conversationId sender text : String) : DB :=
  if jsTrim text == "" then db
  else insertMessage db conversationId sender (jsTrim text)

/-- `sendAutomaticMessage` from `MessagesList`
(src/components/MessagesList.tsx:536-550): a plain message insert by the
session user. -/
def sendAutomaticMessage (db : DB) (conversationId sessionUser message : String) : DB :=
  insertMessage db conversationId sessionUser message

/-- `createOrGetConversation` from `MessagesList`
(src/components/MessagesList.tsx:487-534): normalize the pair so that
`user1_id` is the lexicographically smaller id, look the row up; if found,
unhide it for the session user and return its id, otherwise insert a fresh
row.  Returns the conversation id together with the updated store. -/
def createOrGetConversation (db : DB) (sessionUser otherUserId : String) :
    String × DB :=
  let user1Id := if sessionUser < otherUserId then sessionUser else otherUserId
  let user2Id := if sessionUser < otherUserId then otherUserId else sessionUser
  match db.conversations.find? (fun c =>
      c.user1_id == user1Id && c.user2_id == user2Id) with
  | some existing =>
      (existing.id, unhideConversationForUser db existing.id sessionUser)
  | none =>
      let cid := freshId db
      (cid, { db with
        conversations := db.conversations ++ [⟨cid, user1Id, user2Id, db.now⟩],
        next_id := db.next_id + 1 })

/-- The conversation list of an account, as assembled in
`MessagesList.loadConversations` (src/components/MessagesList.tsx:119-249):
all conversations in which the account participates, minus those with a
`hidden_conversations` marker for the account.  (The component additionally
orders by `last_message_at` and annotates each entry with profile, last
message and unread count; the claims here are about membership, so the list
is kept in table order.) -/
def listConversations (db : DB) (user : String) : List Conversation :=
  (db.conversations.filter (fun c =>
      c.user1_id == user || c.user2_id == user)).filter (fun c =>
    !(db.hidden_conversations.any (fun h =>
        h.user_id == user && h.conversation_id == c.id)))

/-! ## Trade request state machine -/

/-- An incoming trade request joined with its two items, as the local state
assembled by `MessagesList.loadTradeRequests`. -/
structure TradeRequestWithDetails where
  request : TradeRequest
  requester_item : Item
  target_item : Item
deriving Repr, DecidableEq

/-- `loadTradeRequests` from `MessagesList`
(src/components/MessagesList.tsx:308-367): the pending requests targeting
the session user, each joined with the offered and the targeted item (the
component asserts both items non-null; requests whose items are missing are
dropped from the joined list). -/
def loadTradeRequests (db : DB) (sessionUser : String) :
    List TradeRequestWithDetails :=
  (db.trade_requests.filter (fun r =>
      r.target_user_id == sessionUser && r.status == "pending")).filterMap
    (fun r =>
      match db.items.find? (fun i => i.id == r.requester_item_id),
            db.items.find? (fun i => i.id == r.target_item_id) with
      | some ri, some ti => some ⟨r, ri, ti⟩
      | _, _ => none)

/-- The auto-generated confirmation text of
`MessagesList.respondToTradeRequest` (src/components/MessagesList.tsx:607),
naming the two exchanged item titles. -/
def confirmationMessage (requesterItemTitle targetItemTitle : String) : String :=
  "Great news! I\x27ve accepted your trade request. You offered your \""
    ++ requesterItemTitle ++ "\" for my \"" ++ targetItemTitle
    ++ "\". Let\x27s discuss the details!"

/-- `respondToTradeRequest` from `MessagesList`
(src/components/MessagesList.tsx:574-622): look the request up in the local
pending list; if absent do nothing; otherwise set the request's status, and
on "accepted" create-or-get the conversation with the requester and post the
automatic confirmation message.  No item row is touched on either branch. -/
def respondToTradeRequest (db : DB) (sessionUser requestId status : String) : DB :=
  match (loadTradeRequests db sessionUser).find? (fun rd =>
      rd.request.id == requestId) with
  | none => db
  | some rd =>
      let db1 := { db with trade_requests := db.trade_requests.map (fun r =>
          if r.id == requestId then { r with status := status } else r) }
      if status == "accepted" then
        let res := createOrGetConversation db1 sessionUser rd.request.requester_id
        sendAutomaticMessage res.2 res.1 sessionUser
          (confirmationMessage rd.requester_item.title rd.target_item.title)
      else db1

/-! ## Discovery feed and trade request creation -/

/-- `loadUserItems` from `SwipeCards`
(src/components/SwipeCards.tsx:55-70): the session user's items with
`is_available = true`. -/
def loadUserItems (db : DB) (sessionUser : String) : List Item :=
  db.items.filter (fun i => i.user_id == sessionUser && i.is_available == true)

/-- `loadPotentialMatches` from `SwipeCards`
(src/components/SwipeCards.tsx:72-224): candidate items are the available
items of other users, minus the session-local swiped set, minus the targets
of the viewer's own pending/accepted trade requests, minus the items on
either side of an accepted trade that involves one of the viewer's own
available items (step 4.5 queries accepted trades whose requester or target
item is among `userItems`). -/
def loadPotentialMatches (db : DB) (viewer : String)
    (swipedItemIds : List String) : List Item :=
  let otherUsersItems := db.items.filter (fun i =>
    i.user_id != viewer && i.is_available == true)
  let existingRequests := db.trade_requests.filter (fun r =>
    r.requester_id == viewer && (r.status == "pending" || r.status == "accepted"))
  let requestedItemIds := existingRequests.map (fun r => r.target_item_id)
  let userItemIds := (loadUserItems db viewer).map (fun i => i.id)
  let acceptedTrades := db.trade_requests.filter (fun r =>
    (userItemIds.contains r.requester_item_id
      || userItemIds.contains r.target_item_id) && r.status == "accepted")
  let acceptedTradeItemIds :=
    acceptedTrades.map (fun r => r.requester_item_id)
      ++ acceptedTrades.map (fun r => r.target_item_id)
  otherUsersItems.filter (fun item =>
    !(swipedItemIds.contains item.id) && !(requestedItemIds.contains item.id)
      && !(acceptedTradeItemIds.contains item.id))

/-- `sendTradeRequest` from `SwipeCards`
(src/components/SwipeCards.tsx:269-320): if the session user has no
available items, alert and insert nothing; otherwise insert a pending
trade request offering the user's first available item for the target item.
No requester-equals-target check is performed here. -/
def sendTradeRequest (db : DB) (sessionUser : String) (targetItem : Item) : DB :=
  match loadUserItems db sessionUser with
  | [] => db
  | userItem :: _ =>
      { db with
        trade_requests := db.trade_requests ++
          [⟨freshId db, sessionUser, userItem.id, targetItem.user_id,
            targetItem.id, "pending"⟩],
        next_id := db.next_id + 1 }

/-! ## Item take-down / repost -/

/-- `toggleItemAvailability` from the items screen
(src/components/TradeRequests.tsx:492-568): first delete every trade
request whose `requester_item_id` or `target_item_id` is the item (any
status); a deletion failure is logged and ignored (`deleteSucceeds = false`
models it); then set the item's `is_available` to the negation of the
passed current value and `status` to "available"/"unavailable" accordingly,
scoped to the owner's rows. -/
def toggleItemAvailability (db : DB) (sessionUser itemId : String)
    (currentAvailability deleteSucceeds : Bool) : DB :=
  let newAvailability := !currentAvailability
  let newStatus := if newAvailability then "available" else "unavailable"
  let db1 :=
    if deleteSucceeds then
      { db with trade_requests := db.trade_requests.filter (fun r =>
          !(r.requester_item_id == itemId || r.target_item_id == itemId)) }
    else db
  { db1 with items := db1.items.map (fun i =>
      if i.id == itemId && i.user_id == sessionUser then
        { i with is_available := newAvailability, status := newStatus }
      else i) }

/-! ## Friendship state machine -/

/-- `sendFriendRequest` from `FriendSearch` (src/types/database.ts:224-266
in the concatenated source): select the friendships matching either
ordering of the pair with `.single()` — which yields a row exactly when one
row matches, with no status filter — and refuse to insert in that case;
otherwise insert a pending friendship. -/
def sendFriendRequest (db : DB) (sessionUser addresseeId : String) : DB :=
  let matchRows := db.friendships.filter (fun f =>
    (f.requester_id == sessionUser && f.addressee_id == addresseeId)
      || (f.requester_id == addresseeId && f.addressee_id == sessionUser))
  if matchRows.length == 1 then db
  else { db with
    friendships := db.friendships ++
      [⟨freshId db, sessionUser, addresseeId, "pending"⟩],
    next_id := db.next_id + 1 }

/-! ## Concrete scenario states (spec §8) -/

/-- Alice's Bike (value 50, available). -/
def bike : Item := ⟨"i1", "alice", "Bike", 50, true, "available"⟩

/-- Bob's Guitar (value 200, available). -/
def guitar : Item := ⟨"i2", "bob", "Guitar", 200, true, "available"⟩

/-- Alice's pending request offering her Bike for Bob's Guitar. -/
def bikeForGuitar : TradeRequest := ⟨"r1", "alice", "i1", "bob", "i2", "pending"⟩

/-- The Bike-for-Guitar request joined with its two items, as it appears in
Bob's incoming list. -/
def rdBikeGuitar : TradeRequestWithDetails := ⟨bikeForGuitar, bike, guitar⟩

/-- Scenario store: Alice's pending Bike-for-Guitar request to Bob. -/
def tradeDB : DB := ⟨[bike, guitar], [bikeForGuitar], [], [], [], [], 0, 100⟩

/-- A second item of Alice's, used to exhibit the missing self-trade check. -/
def aliceLamp : Item := ⟨"i3", "alice", "Lamp", 20, true, "available"⟩

/-- Store where Alice owns two available items and nothing else exists. -/
def selfDB : DB := ⟨[bike, aliceLamp], [], [], [], [], [], 0, 100⟩

/-- Carol's Amp, traded against Bob's Guitar in `feedDB`. -/
def carolAmp : Item := ⟨"i4", "carol", "Amp", 80, true, "available"⟩

/-- Accepted trade between Carol (offering her Amp) and Bob (his Guitar);
no item of Alice is involved. -/
def ampForGuitar : TradeRequest := ⟨"r2", "carol", "i4", "bob", "i2", "accepted"⟩

/-- Store for the discovery-feed counterexample: Alice views a feed where
Bob's Guitar sits inside an accepted third-party trade. -/
def feedDB : DB := ⟨[guitar, carolAmp], [ampForGuitar], [], [], [], [], 0, 100⟩

/-- An existing conversation row between alice and bob. -/
def convAB : Conversation := ⟨"c1", "alice", "bob", 50⟩

/-- Store with the alice-bob conversation and one unread message from bob. -/
def msgDB : DB :=
  ⟨[], [], [convAB], [⟨"m1", "c1", "bob", "hi", false, 60⟩], [], [], 0, 100⟩

/-- A 1001-character text, one character over the input widget's bound. -/
def longText : String := String.mk (List.replicate 1001 'a')

/-- A single declined friendship between alice and bob. -/
def declinedAB : Friendship := ⟨"f1", "alice", "bob", "declined"⟩

/-- Store whose only friendship row is the declined alice-bob one. -/
def friendDB : DB := ⟨[], [], [], [], [], [declinedAB], 0, 100⟩

/-! ## Generic helper lemmas -/

section Helpers

/-- The pointwise read-marking update of `markMessagesAsRead`. -/
def markUpd (conversationId sessionUser : String) (m : Message) : Message :=
  if m.conversation_id == conversationId && m.is_read == false
      && m.sender_id != sessionUser
  then { m with is_read := true } else m

theorem markUpd_idem (cid v : String) (m : Message) :
    markUpd cid v (markUpd cid v m) = markUpd cid v m := by
  unfold markUpd
  by_cases h : (m.conversation_id == cid && m.is_read == false
      && m.sender_id != v) = true
  · rw [if_pos h, if_neg (by simp)]
  · rw [if_neg h, if_neg h]

theorem markUpd_not_unread (cid v : String) (m : Message) :
    ((markUpd cid v m).conversation_id == cid
      && (markUpd cid v m).is_read == false
      && (markUpd cid v m).sender_id != v) = false := by
  unfold markUpd
  by_cases h : (m.conversation_id == cid && m.is_read == false
      && m.sender_id != v) = true
  · rw [if_pos h]
    simp
  · rw [if_neg h]
    exact Bool.eq_false_iff.mpr h

theorem markMessagesAsRead_eq_map (db : DB) (cid v : String) :
    markMessagesAsRead db cid v =
      { db with messages := db.messages.map (markUpd cid v) } := by
  rfl

end Helpers

/-! ## Claim theorems -/

/-- Claim C4: for every conversation C and viewer V, after `markRead(C, V)`
(the `markMessagesAsRead` update of `ChatScreen`) the unread count of C for
V is 0, and a second identical call leaves the message state unchanged
(idempotence; the operation is a total update, so there is nothing to error
on when no row qualifies). -/
theorem markRead_clears_unread_and_is_idempotent
    (db : DB) (cid v : String) :
    unreadCount (markMessagesAsRead db cid v) cid v = 0 ∧
      markMessagesAsRead (markMessagesAsRead db cid v) cid v =
        markMessagesAsRead db cid v := by
  constructor
  · rw [markMessagesAsRead_eq_map]
    unfold unreadCount
    rw [List.length_eq_zero, List.filter_eq_nil_iff]
    intro m hm
    rcases List.mem_map.mp hm with ⟨m0, _, rfl⟩
    have h := markUpd_not_unread cid v m0
    simpa using h
  · rw [markMessagesAsRead_eq_map, markMessagesAsRead_eq_map]
    have h2 : (db.messages.map (markUpd cid v)).map (markUpd cid v)
        = db.messages.map (markUpd cid v) := by
      rw [List.map_map]
      apply List.map_congr_left
      intro m _
      exact markUpd_idem cid v m
    simp [h2]

/-- Canonical storage discipline for conversation rows: the smaller account
id is stored first, and the ordered pair `(user1_id, user2_id)` determines
the row — together these give at most one conversation per unordered pair
of accounts. -/
def canonicalConversations (l : List Conversation) : Prop :=
  (∀ c ∈ l, c.user1_id ≤ c.user2_id) ∧
    ∀ c1 ∈ l, ∀ c2 ∈ l,
      c1.user1_id = c2.user1_id → c1.user2_id = c2.user2_id → c1 = c2

theorem lt_of_ne_of_not_lt {a b : String} (hab : a ≠ b) (h : ¬a < b) :
    b < a := by
  rcases lt_trichotomy a b with h1 | h1 | h1
  · exact absurd h1 h
  · exact absurd h1 hab
  · exact h1

/-- Claim C3: for distinct accounts, `createOrGetConversation` returns the
same conversation id in either argument order; every row it creates stores
the lexicographically smaller account id in `user1_id`; and it preserves
the canonical at-most-one-row-per-unordered-pair discipline. -/
theorem createOrGetConversation_symmetric_and_canonical
    (db : DB) (a b : String) (hab : a ≠ b) :
    (createOrGetConversation db a b).1 = (createOrGetConversation db b a).1 ∧
    (∀ c ∈ (createOrGetConversation db a b).2.conversations,
        c ∉ db.conversations → c.user1_id < c.user2_id) ∧
    (canonicalConversations db.conversations →
      canonicalConversations (createOrGetConversation db a b).2.conversations) := by
  have e1 : (if b < a then b else a) = (if a < b then a else b) := by
    by_cases h : a < b
    · rw [if_neg (lt_asymm h), if_pos h]
    · rw [if_pos (lt_of_ne_of_not_lt hab h), if_neg h]
  have e2 : (if b < a then a else b) = (if a < b then b else a) := by
    by_cases h : a < b
    · rw [if_neg (lt_asymm h), if_pos h]
    · rw [if_pos (lt_of_ne_of_not_lt hab h), if_neg h]
  have hord : (if a < b then a else b) < (if a < b then b else a) := by
    by_cases h : a < b
    · rw [if_pos h, if_pos h]; exact h
    · rw [if_neg h, if_neg h]; exact lt_of_ne_of_not_lt hab h
  refine ⟨?_, ?_, ?_⟩
  · simp only [createOrGetConversation, e1, e2]
    cases hfind : db.conversations.find? (fun c =>
        c.user1_id == (if a < b then a else b)
          && c.user2_id == (if a < b then b else a)) with
    | none => simp only [hfind]
    | some c0 => simp only [hfind]
  · intro c hc hnot
    cases hfind : db.conversations.find? (fun c =>
        c.user1_id == (if a < b then a else b)
          && c.user2_id == (if a < b then b else a)) with
    | none =>
        simp only [createOrGetConversation, hfind, List.mem_append,
          List.mem_singleton] at hc
        rcases hc with hc | hc
        · exact absurd hc hnot
        · rw [hc]
          exact hord
    | some c0 =>
        simp only [createOrGetConversation, hfind,
          unhideConversationForUser] at hc
        exact absurd hc hnot
  · intro hcan
    cases hfind : db.conversations.find? (fun c =>
        c.user1_id == (if a < b then a else b)
          && c.user2_id == (if a < b then b else a)) with
    | some c0 =>
        simp only [createOrGetConversation, hfind, unhideConversationForUser]
        exact hcan
    | none =>
        have hnone := List.find?_eq_none.mp hfind
        simp only [createOrGetConversation, hfind]
        constructor
        · intro c hc
          rcases List.mem_append.mp hc with hc | hc
          · exact hcan.1 c hc
          · rw [List.mem_singleton.mp hc]
            exact le_of_lt hord
        · intro c1 hc1 c2 hc2 h1 h2
          rcases List.mem_append.mp hc1 with hc1 | hc1 <;>
            rcases List.mem_append.mp hc2 with hc2 | hc2
          · exact hcan.2 c1 hc1 c2 hc2 h1 h2
          · exfalso
            have hn := hnone c1 hc1
            rw [List.mem_singleton.mp hc2] at h1 h2
            simp [h1, h2] at hn
          · exfalso
            have hn := hnone c2 hc2
            rw [List.mem_singleton.mp hc1] at h1 h2
            simp [← h1, ← h2] at hn
          · rw [List.mem_singleton.mp hc1, List.mem_singleton.mp hc2]

/-- Claim C10: `toggleItemAvailability` first deletes every trade request
referencing the item as offered or targeted item, regardless of the
request's status; requests not referencing the item survive; a failed
deletion leaves the request table untouched but does not abort the
availability update; and in every case the owner's item row receives the
toggled availability flag and the matching status string. -/
theorem toggleItemAvailability_deletes_requests_then_updates_item
    (db : DB) (u itemId : String) (cur delOk : Bool) :
    (delOk = true →
      ∀ r ∈ (toggleItemAvailability db u itemId cur delOk).trade_requests,
        r.requester_item_id ≠ itemId ∧ r.target_item_id ≠ itemId) ∧
    (delOk = true →
      ∀ r ∈ db.trade_requests, r.requester_item_id ≠ itemId →
        r.target_item_id ≠ itemId →
        r ∈ (toggleItemAvailability db u itemId cur delOk).trade_requests) ∧
    (delOk = false →
      (toggleItemAvailability db u itemId cur delOk).trade_requests
        = db.trade_requests) ∧
    (∀ i ∈ db.items, i.id = itemId → i.user_id = u →
      { i with is_available := (!cur), status :=
          (if (!cur) then "available" else "unavailable") }
        ∈ (toggleItemAvailability db u itemId cur delOk).items) := by
  refine ⟨?_, ?_, ?_, ?_⟩
  · intro hd r hr
    subst hd
    simp only [toggleItemAvailability, if_true] at hr
    rcases List.mem_filter.mp hr with ⟨_, hp⟩
    simp at hp
    exact hp
  · intro hd r hr h1 h2
    subst hd
    simp only [toggleItemAvailability, if_true]
    exact List.mem_filter.mpr ⟨hr, by simp [h1, h2]⟩
  · intro hd
    subst hd
    simp [toggleItemAvailability]
  · intro i hi hid huser
    cases delOk with
    | true =>
        simp only [toggleItemAvailability, if_true]
        exact List.mem_map.mpr ⟨i, hi, by simp [hid, huser]⟩
    | false =>
        simp only [toggleItemAvailability, if_false]
        exact List.mem_map.mpr ⟨i, hi, by simp [hid, huser]⟩

/-- Claim C9 (amended): the friendship pre-check of `sendFriendRequest`
matches rows of any status (declined included) in both orderings and uses a
single-row lookup: when exactly one such row exists the insert is refused;
otherwise one pending friendship row is appended. -/
theorem sendFriendRequest_single_row_guard
    (db : DB) (a b : String) :
    ((db.friendships.filter (fun f =>
        (f.requester_id == a && f.addressee_id == b)
          || (f.requester_id == b && f.addressee_id == a))).length = 1 →
      sendFriendRequest db a b = db) ∧
    ((db.friendships.filter (fun f =>
        (f.requester_id == a && f.addressee_id == b)
          || (f.requester_id == b && f.addressee_id == a))).length ≠ 1 →
      ∃ f, (sendFriendRequest db a b).friendships = db.friendships ++ [f]
        ∧ f.requester_id = a ∧ f.addressee_id = b ∧ f.status = "pending") := by
  constructor
  · intro h
    simp [sendFriendRequest, h]
  · intro h
    refine ⟨⟨freshId db, a, b, "pending"⟩, ?_, rfl, rfl, rfl⟩
    simp [sendFriendRequest, h]

/-- Claim C6 (amended): `sendTradeRequest` inserts nothing when the session
user has no available items; otherwise it appends exactly one trade request
with status "pending" whose offered item is the user's first available
item, hence owned by the requester and available.  No requester-equals-
target-owner check is performed. -/
theorem sendTradeRequest_offers_first_available_item
    (db : DB) (u : String) (t : Item) :
    (loadUserItems db u = [] → sendTradeRequest db u t = db) ∧
    (loadUserItems db u ≠ [] →
      ∃ r, (sendTradeRequest db u t).trade_requests = db.trade_requests ++ [r]
        ∧ r.status = "pending" ∧ r.requester_id = u
        ∧ r.target_user_id = t.user_id ∧ r.target_item_id = t.id
        ∧ ∃ i ∈ db.items, i.id = r.requester_item_id ∧ i.user_id = u
            ∧ i.is_available = true) := by
  constructor
  · intro h
    simp [sendTradeRequest, h]
  · intro h
    cases hload : loadUserItems db u with
    | nil => exact absurd hload h
    | cons i l =>
        refine ⟨⟨freshId db, u, i.id, t.user_id, t.id, "pending"⟩, ?_,
          rfl, rfl, rfl, rfl, i, ?_, rfl, ?_, ?_⟩
        · simp [sendTradeRequest, hload]
        · have : i ∈ loadUserItems db u := by
            rw [hload]; exact List.mem_cons_self i l
          exact (List.mem_filter.mp this).1
        · have : i ∈ loadUserItems db u := by
            rw [hload]; exact List.mem_cons_self i l
          have hp := (List.mem_filter.mp this).2
          simp at hp
          exact hp.1
        · have : i ∈ loadUserItems db u := by
            rw [hload]; exact List.mem_cons_self i l
          have hp := (List.mem_filter.mp this).2
          simp at hp
          exact hp.2

/-- Claim C7 (amended): every item the discovery feed returns for a viewer
is owned by someone else, is available, is not in the session swiped set,
is not the target of a pending or accepted trade request from the viewer,
and is not on either side of an accepted trade that involves one of the
viewer's own available items — the code's accepted-trade exclusion only
queries trades touching the viewer's items, not all accepted trades. -/
theorem loadPotentialMatches_filters
    (db : DB) (viewer : String) (swiped : List String) :
    ∀ item ∈ loadPotentialMatches db viewer swiped,
      item.user_id ≠ viewer ∧ item.is_available = true
      ∧ item.id ∉ swiped
      ∧ (∀ r ∈ db.trade_requests, r.requester_id = viewer →
          (r.status = "pending" ∨ r.status = "accepted") →
          r.target_item_id ≠ item.id)
      ∧ (∀ r ∈ db.trade_requests, r.status = "accepted" →
          (∃ i ∈ loadUserItems db viewer,
            i.id = r.requester_item_id ∨ i.id = r.target_item_id) →
          r.requester_item_id ≠ item.id ∧ r.target_item_id ≠ item.id) := by
  intro item hmem
  unfold loadPotentialMatches at hmem
  rcases List.mem_filter.mp hmem with ⟨hother, houter⟩
  rcases List.mem_filter.mp hother with ⟨_, hp⟩
  simp only [Bool.and_eq_true] at hp houter
  refine ⟨?_, ?_, ?_, ?_, ?_⟩
  · have h := hp.1
    simpa using h
  · have h := hp.2
    simpa using h
  · have h := houter.1.1
    simpa using h
  · intro r hr hreq hst heq
    have hrmem : r ∈ db.trade_requests.filter (fun r =>
        r.requester_id == viewer
          && (r.status == "pending" || r.status == "accepted")) := by
      refine List.mem_filter.mpr ⟨hr, ?_⟩
      rcases hst with h | h <;> simp [hreq, h]
    have hin : item.id ∈ (db.trade_requests.filter (fun r =>
        r.requester_id == viewer
          && (r.status == "pending" || r.status == "accepted"))).map
        (fun r => r.target_item_id) :=
      List.mem_map.mpr ⟨r, hrmem, heq⟩
    have hneg := houter.1.2
    rw [Bool.not_eq_true'] at hneg
    have hc : ((db.trade_requests.filter (fun r =>
        r.requester_id == viewer
          && (r.status == "pending" || r.status == "accepted"))).map
        (fun r => r.target_item_id)).contains item.id = true :=
      List.contains_iff_exists_mem_beq.mpr ⟨item.id, hin, beq_self_eq_true item.id⟩
    exact Bool.false_ne_true (hneg ▸ hc)
  · intro r hr hst hinv
    have hrmem : r ∈ db.trade_requests.filter (fun r =>
        (((loadUserItems db viewer).map (fun i => i.id)).contains
            r.requester_item_id
          || ((loadUserItems db viewer).map (fun i => i.id)).contains
            r.target_item_id) && r.status == "accepted") := by
      refine List.mem_filter.mpr ⟨hr, ?_⟩
      rcases hinv with ⟨i, hi, hside⟩
      rcases hside with h | h
      · simp [hst]
        exact Or.inl ⟨i, hi, h⟩
      · simp [hst]
        exact Or.inr ⟨i, hi, h⟩
    have hneg := houter.2
    rw [Bool.not_eq_true'] at hneg
    constructor
    · intro heq
      have hin : item.id ∈ (db.trade_requests.filter (fun r =>
          (((loadUserItems db viewer).map (fun i => i.id)).contains
              r.requester_item_id
            || ((loadUserItems db viewer).map (fun i => i.id)).contains
              r.target_item_id) && r.status == "accepted")).map
          (fun r => r.requester_item_id) :=
        List.mem_map.mpr ⟨r, hrmem, heq⟩
      have hc : ((db.trade_requests.filter (fun r =>
          (((loadUserItems db viewer).map (fun i => i.id)).contains
              r.requester_item_id
            || ((loadUserItems db viewer).map (fun i => i.id)).contains
              r.target_item_id) && r.status == "accepted")).map
          (fun r => r.requester_item_id)
        ++ (db.trade_requests.filter (fun r =>
          (((loadUserItems db viewer).map (fun i => i.id)).contains
              r.requester_item_id
            || ((loadUserItems db viewer).map (fun i => i.id)).contains
              r.target_item_id) && r.status == "accepted")).map
          (fun r => r.target_item_id)).contains item.id = true :=
        List.contains_iff_exists_mem_beq.mpr
          ⟨item.id, List.mem_append.mpr (Or.inl hin), beq_self_eq_true item.id⟩
      exact Bool.false_ne_true (hneg ▸ hc)
    · intro heq
      have hin : item.id ∈ (db.trade_requests.filter (fun r =>
          (((loadUserItems db viewer).map (fun i => i.id)).contains
              r.requester_item_id
            || ((loadUserItems db viewer).map (fun i => i.id)).contains
              r.target_item_id) && r.status == "accepted")).map
          (fun r => r.target_item_id) :=
        List.mem_map.mpr ⟨r, hrmem, heq⟩
      have hc : ((db.trade_requests.filter (fun r =>
          (((loadUserItems db viewer).map (fun i => i.id)).contains
              r.requester_item_id
            || ((loadUserItems db viewer).map (fun i => i.id)).contains
              r.target_item_id) && r.status == "accepted")).map
          (fun r => r.requester_item_id)
        ++ (db.trade_requests.filter (fun r =>
          (((loadUserItems db viewer).map (fun i => i.id)).contains
              r.requester_item_id
            || ((loadUserItems db viewer).map (fun i => i.id)).contains
              r.target_item_id) && r.status == "accepted")).map
          (fun r => r.target_item_id)).contains item.id = true :=
        List.contains_iff_exists_mem_beq.mpr
          ⟨item.id, List.mem_append.mpr (Or.inr hin), beq_self_eq_true item.id⟩
      exact Bool.false_ne_true (hneg ▸ hc)

/-- Claim C8 (amended): `sendMessage` inserts nothing when the trimmed text
is empty (a silent early return rather than a surfaced error); the
1000-character bound is enforced by the input widget rather than by
`sendMessage`; on success exactly one message with `is_read = false` and
the trimmed content is appended, and the conversation row gets the current
time as its last-activity timestamp. -/
theorem sendMessage_empty_guard_and_append
    (db : DB) (cid sender text : String) :
    (jsTrim text = "" → sendMessage db cid sender text = db) ∧
    (jsTrim text ≠ "" →
      (sendMessage db cid sender text).messages
          = db.messages
            ++ [⟨freshId db, cid, sender, jsTrim text, false, db.now⟩]
        ∧ ∀ c ∈ db.conversations, c.id = cid →
            { c with last_message_at := db.now }
              ∈ (sendMessage db cid sender text).conversations) := by
  constructor
  · intro h
    simp [sendMessage, h]
  · intro h
    have hbeq : (jsTrim text == "") = false := by
      simp [h]
    constructor
    · simp [sendMessage, hbeq, insertMessage]
    · intro c hc hcid
      simp only [sendMessage, hbeq, Bool.false_eq_true, if_false,
        insertMessage]
      exact List.mem_map.mpr ⟨c, hc, by simp [hcid]⟩

theorem mem_listConversations (db : DB) (u : String) (c : Conversation) :
    c ∈ listConversations db u ↔
      c ∈ db.conversations ∧ (c.user1_id = u ∨ c.user2_id = u)
        ∧ ∀ hm ∈ db.hidden_conversations,
            ¬(hm.user_id = u ∧ hm.conversation_id = c.id) := by
  unfold listConversations
  rw [List.mem_filter, List.mem_filter]
  constructor
  · rintro ⟨⟨hc, hp⟩, hh⟩
    refine ⟨hc, by simpa using hp, ?_⟩
    intro hm hmm hcontr
    have hany : db.hidden_conversations.any (fun h =>
        h.user_id == u && h.conversation_id == c.id) = true :=
      List.any_eq_true.mpr ⟨hm, hmm, by simp [hcontr.1, hcontr.2]⟩
    rw [Bool.not_eq_true'] at hh
    exact Bool.false_ne_true (hh ▸ hany)
  · rintro ⟨hc, hp, hh⟩
    refine ⟨⟨hc, ?_⟩, ?_⟩
    · rcases hp with h | h <;> simp [h]
    · rw [Bool.not_eq_true']
      refine Bool.eq_false_iff.mpr ?_
      intro hany
      rcases List.any_eq_true.mp hany with ⟨hm, hmm, hpred⟩
      simp only [Bool.and_eq_true, beq_iff_eq] at hpred
      exact hh hm hmm ⟨hpred.1, hpred.2⟩

theorem hideConversationForUser_tables (db : DB) (cid u : String) :
    (hideConversationForUser db cid u).conversations = db.conversations ∧
      (hideConversationForUser db cid u).messages = db.messages := by
  unfold hideConversationForUser
  split <;> exact ⟨rfl, rfl⟩

theorem hideConversationForUser_marker (db : DB) (cid u : String) :
    ∃ hm ∈ (hideConversationForUser db cid u).hidden_conversations,
      hm.user_id = u ∧ hm.conversation_id = cid := by
  unfold hideConversationForUser
  split
  · next hany =>
      rcases List.any_eq_true.mp hany with ⟨hm, hmm, hpred⟩
      simp only [Bool.and_eq_true, beq_iff_eq] at hpred
      exact ⟨hm, hmm, hpred.2, hpred.1⟩
  · exact ⟨⟨cid, u⟩, by simp, rfl, rfl⟩

theorem hideConversationForUser_marker_sub (db : DB) (cid u : String) :
    ∀ hm ∈ (hideConversationForUser db cid u).hidden_conversations,
      hm ∈ db.hidden_conversations
        ∨ (hm.user_id = u ∧ hm.conversation_id = cid) := by
  unfold hideConversationForUser
  split
  · intro hm hmm
    exact Or.inl hmm
  · intro hm hmm
    rcases List.mem_append.mp hmm with h | h
    · exact Or.inl h
    · rw [List.mem_singleton.mp h]
      exact Or.inr ⟨rfl, rfl⟩

theorem unhideConversationForUser_no_marker (db : DB) (cid u : String) :
    ∀ hm ∈ (unhideConversationForUser db cid u).hidden_conversations,
      ¬(hm.user_id = u ∧ hm.conversation_id = cid) := by
  unfold unhideConversationForUser
  intro hm hmm hcontr
  have hp := (List.mem_filter.mp hmm).2
  simp only [Bool.not_eq_true', Bool.and_eq_false_iff, beq_eq_false_iff_ne]
    at hp
  rcases hp with h | h
  · exact h hcontr.2
  · exact h hcontr.1

/-- Claim C5: hiding a conversation removes it from the hiding account's
list only — the other participant still lists it, no message or
conversation row is deleted — and a subsequent `createOrGetConversation`
call by the hiding account (which clears the marker) restores it to that
account's list. -/
theorem hideConversation_unilateral_and_restored_by_reengagement
    (db : DB) (c : Conversation) (A B : String)
    (hab : A ≠ B)
    (hfind : db.conversations.find? (fun x =>
        x.user1_id == (if A < B then A else B)
          && x.user2_id == (if A < B then B else A)) = some c)
    (hB : ∀ hm ∈ db.hidden_conversations,
      ¬(hm.user_id = B ∧ hm.conversation_id = c.id)) :
    (∀ c' ∈ listConversations (hideConversation db c.id A) A, c'.id ≠ c.id) ∧
    c ∈ listConversations (hideConversation db c.id A) B ∧
    (hideConversation db c.id A).messages = db.messages ∧
    (hideConversation db c.id A).conversations = db.conversations ∧
    c ∈ listConversations
        (createOrGetConversation (hideConversation db c.id A) A B).2 A := by
  have hmem : c ∈ db.conversations := List.mem_of_find?_eq_some hfind
  have hpred := List.find?_some hfind
  simp only [Bool.and_eq_true, beq_iff_eq] at hpred
  have hApart : c.user1_id = A ∨ c.user2_id = A := by
    by_cases h : A < B
    · simp only [if_pos h] at hpred
      exact Or.inl hpred.1
    · simp only [if_neg h] at hpred
      exact Or.inr hpred.2
  have hBpart : c.user1_id = B ∨ c.user2_id = B := by
    by_cases h : A < B
    · simp only [if_pos h] at hpred
      exact Or.inr hpred.2
    · simp only [if_neg h] at hpred
      exact Or.inl hpred.1
  have htab : (hideConversation db c.id A).conversations = db.conversations
      ∧ (hideConversation db c.id A).messages = db.messages :=
    hideConversationForUser_tables db c.id A
  refine ⟨?_, ?_, htab.2, htab.1, ?_⟩
  · intro c' hc' hid
    rcases (mem_listConversations _ _ _).mp hc' with ⟨_, _, hno⟩
    rcases hideConversationForUser_marker db c.id A with ⟨hm, hmm, hu, hcid⟩
    exact hno hm hmm ⟨hu, by rw [hcid, hid]⟩
  · refine (mem_listConversations _ _ _).mpr ⟨?_, hBpart, ?_⟩
    · rw [htab.1]
      exact hmem
    · intro hm hmm hcontr
      rcases hideConversationForUser_marker_sub db c.id A hm hmm with h | h
      · exact hB hm h hcontr
      · exact hab (h.1 ▸ hcontr.1)
  · have hfind1 : (hideConversation db c.id A).conversations.find? (fun x =>
        x.user1_id == (if A < B then A else B)
          && x.user2_id == (if A < B then B else A)) = some c := by
      rw [htab.1]
      exact hfind
    simp only [createOrGetConversation, hfind1]
    refine (mem_listConversations _ _ _).mpr ⟨?_, hApart, ?_⟩
    · show c ∈ (unhideConversationForUser (hideConversation db c.id A)
        c.id A).conversations
      rw [show (unhideConversationForUser (hideConversation db c.id A)
          c.id A).conversations = (hideConversation db c.id A).conversations
        from rfl, htab.1]
      exact hmem
    · intro hm hmm hcontr
      exact unhideConversationForUser_no_marker _ c.id A hm hmm
        ⟨hcontr.1, hcontr.2⟩

theorem find?_map_status (l : List TradeRequest) (rid st : String)
    (r0 : TradeRequest) (hr0 : r0 ∈ l) (hid : r0.id = rid) :
    ((l.map (fun r => if r.id == rid then { r with status := st } else r)).find?
        (fun r => r.id == rid)).map (fun r => r.status) = some st := by
  induction l with
  | nil => cases hr0
  | cons x xs ih =>
      by_cases hx : (x.id == rid) = true
      · rw [List.map_cons, if_pos hx]
        rw [List.find?_cons_of_pos]
        · rfl
        · simpa using hx
      · rw [List.map_cons, if_neg hx]
        rw [List.find?_cons_of_neg]
        · refine ih ?_
          rcases List.mem_cons.mp hr0 with h | h
          · exfalso
            apply hx
            simp [← h, hid]
          · exact h
        · simpa using hx

theorem createOrGet_result (db : DB) (a b : String) :
    ∃ c ∈ (createOrGetConversation db a b).2.conversations,
      c.id = (createOrGetConversation db a b).1 ∧
        ((c.user1_id = a ∧ c.user2_id = b)
          ∨ (c.user1_id = b ∧ c.user2_id = a)) := by
  cases hfind : db.conversations.find? (fun c =>
      c.user1_id == (if a < b then a else b)
        && c.user2_id == (if a < b then b else a)) with
  | some c0 =>
      refine ⟨c0, ?_, ?_, ?_⟩
      · simp only [createOrGetConversation, hfind, unhideConversationForUser]
        exact List.mem_of_find?_eq_some hfind
      · simp only [createOrGetConversation, hfind]
      · have hp := List.find?_some hfind
        simp only [Bool.and_eq_true, beq_iff_eq] at hp
        by_cases h : a < b
        · simp only [if_pos h] at hp
          exact Or.inl hp
        · simp only [if_neg h] at hp
          exact Or.inr hp
  | none =>
      refine ⟨⟨freshId db, (if a < b then a else b),
        (if a < b then b else a), db.now⟩, ?_, ?_, ?_⟩
      · simp only [createOrGetConversation, hfind]
        exact List.mem_append.mpr (Or.inr (List.mem_singleton.mpr rfl))
      · simp only [createOrGetConversation, hfind]
      · by_cases h : a < b
        · exact Or.inl ⟨if_pos h, if_pos h⟩
        · exact Or.inr ⟨if_neg h, if_neg h⟩

theorem createOrGet_trade_requests (db : DB) (a b : String) :
    (createOrGetConversation db a b).2.trade_requests = db.trade_requests := by
  cases hfind : db.conversations.find? (fun c =>
      c.user1_id == (if a < b then a else b)
        && c.user2_id == (if a < b then b else a)) with
  | some c0 =>
      simp only [createOrGetConversation, hfind, unhideConversationForUser]
  | none =>
      simp only [createOrGetConversation, hfind]

theorem insertMessage_conv_preserved (db : DB) (cid sender content : String) :
    ∀ c ∈ db.conversations,
      ∃ c' ∈ (insertMessage db cid sender content).conversations,
        c'.id = c.id ∧ c'.user1_id = c.user1_id
          ∧ c'.user2_id = c.user2_id := by
  intro c hc
  by_cases h : (c.id == cid) = true
  · refine ⟨{ c with last_message_at := db.now }, ?_, rfl, rfl, rfl⟩
    have he : (fun x : Conversation =>
        if x.id == cid then { x with last_message_at := db.now } else x) c
        = { c with last_message_at := db.now } := by
      simp only [if_pos h]
    rw [← he]
    exact List.mem_map_of_mem _ hc
  · refine ⟨c, ?_, rfl, rfl, rfl⟩
    have he : (fun x : Conversation =>
        if x.id == cid then { x with last_message_at := db.now } else x) c
        = c := by
      simp only [if_neg h]
    rw [← he]
    exact List.mem_map_of_mem _ hc

theorem insertMessage_msg_mem (db : DB) (cid sender content : String) :
    (⟨freshId db, cid, sender, content, false, db.now⟩ : Message)
      ∈ (insertMessage db cid sender content).messages := by
  simp [insertMessage]

/-- Claim C2: after the target accepts a pending incoming trade request,
the request's status is "accepted", a conversation between the requester
and the target exists, and that conversation contains the auto-generated
confirmation message naming the two exchanged item titles. -/
theorem respondToTradeRequest_accept_creates_conversation
    (db : DB) (me rid : String) (rd : TradeRequestWithDetails)
    (hfind : (loadTradeRequests db me).find? (fun x => x.request.id == rid)
        = some rd) :
    (((respondToTradeRequest db me rid "accepted").trade_requests.find?
        (fun r => r.id == rid)).map (fun r => r.status)) = some "accepted" ∧
    ∃ c ∈ (respondToTradeRequest db me rid "accepted").conversations,
      ((c.user1_id = rd.request.requester_id ∧ c.user2_id = me)
        ∨ (c.user1_id = me ∧ c.user2_id = rd.request.requester_id)) ∧
      ∃ m ∈ (respondToTradeRequest db me rid "accepted").messages,
        m.conversation_id = c.id ∧
          m.content = confirmationMessage rd.requester_item.title
            rd.target_item.title := by
  have hrd_mem : rd ∈ loadTradeRequests db me :=
    List.mem_of_find?_eq_some hfind
  have hrd_id : rd.request.id = rid := by
    have h := List.find?_some hfind
    simpa using h
  have hreq_mem : rd.request ∈ db.trade_requests := by
    unfold loadTradeRequests at hrd_mem
    rcases List.mem_filterMap.mp hrd_mem with ⟨r, hr, hf⟩
    rcases h1 : db.items.find? (fun i => i.id == r.requester_item_id)
      with _ | ri
    · rw [h1] at hf
      cases hf
    rcases h2 : db.items.find? (fun i => i.id == r.target_item_id)
      with _ | ti
    · rw [h1, h2] at hf
      cases hf
    rw [h1, h2] at hf
    have hrr : rd.request = r := by
      cases hf
      rfl
    rw [hrr]
    exact (List.mem_filter.mp hr).1
  simp only [respondToTradeRequest, hfind]
  rw [if_pos (beq_self_eq_true ("accepted" : String))]
  set db1 : DB := { db with trade_requests := db.trade_requests.map (fun r =>
    if r.id == rid then { r with status := "accepted" } else r) } with hdb1
  set res := createOrGetConversation db1 me rd.request.requester_id with hres
  constructor
  · have htr : (sendAutomaticMessage res.2 res.1 me
        (confirmationMessage rd.requester_item.title rd.target_item.title)
        ).trade_requests = db1.trade_requests := by
      show res.2.trade_requests = db1.trade_requests
      rw [hres]
      exact createOrGet_trade_requests db1 me rd.request.requester_id
    rw [htr]
    exact find?_map_status db.trade_requests rid "accepted" rd.request
      hreq_mem hrd_id
  · rcases createOrGet_result db1 me rd.request.requester_id
      with ⟨c0, hc0, hc0id, hc0pair⟩
    have hc0m : c0 ∈ res.2.conversations := by
      rw [hres]
      exact hc0
    have hc0id' : c0.id = res.1 := by
      rw [hres]
      exact hc0id
    rcases insertMessage_conv_preserved res.2 res.1 me
        (confirmationMessage rd.requester_item.title rd.target_item.title)
        c0 hc0m with ⟨c1, hc1, hc1id, hc1u1, hc1u2⟩
    refine ⟨c1, hc1, ?_, ?_⟩
    · rw [hc1u1, hc1u2]
      rcases hc0pair with h | h
      · exact Or.inr h
      · exact Or.inl h
    · refine ⟨⟨freshId res.2, res.1, me, confirmationMessage
        rd.requester_item.title rd.target_item.title, false, res.2.now⟩,
        insertMessage_msg_mem res.2 res.1 me _, ?_, rfl⟩
      show res.1 = c1.id
      rw [hc1id, hc0id']

/-! ## Concrete evaluations: divergences and witnesses -/

/-- Claim C1 (divergence of the code): when Bob accepts the pending
Bike-for-Guitar request, the request becomes "accepted" and the
conversation and message appear, but the items table is untouched — both
Bike and Guitar keep `is_available = true` and status "available", while
the claim requires both to become unavailable. -/
theorem respondToTradeRequest_accept_leaves_items_available :
    (respondToTradeRequest tradeDB "bob" "r1" "accepted").items
        = tradeDB.items
      ∧ bike ∈ (respondToTradeRequest tradeDB "bob" "r1" "accepted").items
      ∧ bike.is_available = true ∧ bike.status = "available"
      ∧ guitar ∈ (respondToTradeRequest tradeDB "bob" "r1" "accepted").items
      ∧ guitar.is_available = true ∧ guitar.status = "available"
      ∧ ((respondToTradeRequest tradeDB "bob" "r1"
          "accepted").trade_requests.find? (fun r => r.id == "r1")).map
          (fun r => r.status) = some "accepted" := by
  decide

/-- Witness for claim C2 at the concrete Bike-for-Guitar state. -/
theorem respondToTradeRequest_accept_creates_conversation_witness :
    (((respondToTradeRequest tradeDB "bob" "r1" "accepted"
        ).trade_requests.find? (fun r => r.id == "r1")).map
        (fun r => r.status)) = some "accepted" ∧
    ∃ c ∈ (respondToTradeRequest tradeDB "bob" "r1" "accepted").conversations,
      ((c.user1_id = rdBikeGuitar.request.requester_id ∧ c.user2_id = "bob")
        ∨ (c.user1_id = "bob"
            ∧ c.user2_id = rdBikeGuitar.request.requester_id)) ∧
      ∃ m ∈ (respondToTradeRequest tradeDB "bob" "r1" "accepted").messages,
        m.conversation_id = c.id ∧
          m.content = confirmationMessage rdBikeGuitar.requester_item.title
            rdBikeGuitar.target_item.title :=
  respondToTradeRequest_accept_creates_conversation tradeDB "bob" "r1"
    rdBikeGuitar (by decide)

/-- Witness for claim C3 on the concrete store, alice vs bob. -/
theorem createOrGetConversation_symmetric_and_canonical_witness :
    ((createOrGetConversation tradeDB "alice" "bob").1
        = (createOrGetConversation tradeDB "bob" "alice").1)
      ∧ (∀ c ∈ (createOrGetConversation tradeDB "alice" "bob").2.conversations,
          c ∉ tradeDB.conversations → c.user1_id < c.user2_id)
      ∧ (canonicalConversations tradeDB.conversations →
          canonicalConversations
            (createOrGetConversation tradeDB "alice" "bob").2.conversations) :=
  createOrGetConversation_symmetric_and_canonical tradeDB "alice" "bob"
    (by decide)

/-- Witness for claim C5: alice hides the alice-bob conversation and a
re-engagement restores it. -/
theorem hideConversation_unilateral_and_restored_witness :
    (∀ c' ∈ listConversations (hideConversation msgDB convAB.id "alice")
        "alice", c'.id ≠ convAB.id) ∧
    convAB ∈ listConversations (hideConversation msgDB convAB.id "alice")
        "bob" ∧
    (hideConversation msgDB convAB.id "alice").messages = msgDB.messages ∧
    (hideConversation msgDB convAB.id "alice").conversations
        = msgDB.conversations ∧
    convAB ∈ listConversations
        (createOrGetConversation (hideConversation msgDB convAB.id "alice")
          "alice" "bob").2 "alice" :=
  hideConversation_unilateral_and_restored_by_reengagement msgDB convAB
    "alice" "bob" (by decide)
    (by
      have h : "alice" < "bob" := by
        rw [String.lt_iff_toList_lt]
        decide
      simp only [if_pos h]
      decide)
    (by decide)

/-- Claim C6 (counterexample to the claim as stated): with Alice owning an
available item, a trade request whose target item is Alice's own Lamp is
inserted as pending — no failure, although requester and target owner
coincide. -/
theorem sendTradeRequest_inserts_self_trade :
    aliceLamp.user_id = "alice"
      ∧ (sendTradeRequest selfDB "alice" aliceLamp).trade_requests ≠ []
      ∧ ∃ r ∈ (sendTradeRequest selfDB "alice" aliceLamp).trade_requests,
          r.requester_id = "alice" ∧ r.target_user_id = "alice"
            ∧ r.status = "pending" := by
  decide

/-- Witness for claim C6 (amended) at the concrete store. -/
theorem sendTradeRequest_offers_first_available_item_witness :
    loadUserItems tradeDB "alice" ≠ [] ∧
    ∃ r, (sendTradeRequest tradeDB "alice" guitar).trade_requests
        = tradeDB.trade_requests ++ [r]
      ∧ r.status = "pending" ∧ r.requester_id = "alice"
      ∧ r.target_user_id = guitar.user_id ∧ r.target_item_id = guitar.id
      ∧ ∃ i ∈ tradeDB.items, i.id = r.requester_item_id
          ∧ i.user_id = "alice" ∧ i.is_available = true :=
  ⟨by decide,
    (sendTradeRequest_offers_first_available_item tradeDB "alice" guitar).2
      (by decide)⟩

/-- Claim C7 (counterexample to the claim as stated): Bob's Guitar is
inside an accepted trade with Carol, yet it still appears in Alice's feed —
the accepted-trade exclusion only covers trades touching the viewer's own
items. -/
theorem loadPotentialMatches_shows_item_in_accepted_trade :
    guitar ∈ loadPotentialMatches feedDB "alice" []
      ∧ ∃ r ∈ feedDB.trade_requests, r.status = "accepted"
          ∧ (r.requester_item_id = guitar.id
              ∨ r.target_item_id = guitar.id) := by
  decide

/-- Witness for claim C7 (amended): the feed guarantees evaluated at Bob's
Guitar in Alice's feed. -/
theorem loadPotentialMatches_filters_witness :
    guitar.user_id ≠ "alice" ∧ guitar.is_available = true
      ∧ guitar.id ∉ ([] : List String)
      ∧ (∀ r ∈ feedDB.trade_requests, r.requester_id = "alice" →
          (r.status = "pending" ∨ r.status = "accepted") →
          r.target_item_id ≠ guitar.id)
      ∧ (∀ r ∈ feedDB.trade_requests, r.status = "accepted" →
          (∃ i ∈ loadUserItems feedDB "alice",
            i.id = r.requester_item_id ∨ i.id = r.target_item_id) →
          r.requester_item_id ≠ guitar.id ∧ r.target_item_id ≠ guitar.id) :=
  loadPotentialMatches_filters feedDB "alice" [] guitar (by decide)

set_option maxRecDepth 100000 in
/-- Claim C8 (counterexample to the claim as stated): a 1001-character
text — over the 1000-character bound — is accepted by `sendMessage` and
appended as a message instead of failing. -/
theorem sendMessage_accepts_overlong_text :
    longText.length = 1001
      ∧ (sendMessage msgDB "c1" "alice" longText).messages.length
          = msgDB.messages.length + 1 := by
  decide

/-- Witness for claim C8 (amended) at a concrete non-empty text. -/
theorem sendMessage_empty_guard_and_append_witness :
    jsTrim "hello" ≠ "" ∧
    ((sendMessage msgDB "c1" "alice" "hello").messages
        = msgDB.messages
          ++ [⟨freshId msgDB, "c1", "alice", jsTrim "hello", false,
            msgDB.now⟩]
      ∧ ∀ c ∈ msgDB.conversations, c.id = "c1" →
          { c with last_message_at := msgDB.now }
            ∈ (sendMessage msgDB "c1" "alice" "hello").conversations) :=
  ⟨by decide,
    (sendMessage_empty_guard_and_append msgDB "c1" "alice" "hello").2
      (by decide)⟩

/-- Claim C9 (counterexample to the claim as stated): the only friendship
between alice and bob is declined, so no non-declined friendship exists,
yet `sendFriendRequest` refuses to insert (the store is unchanged). -/
theorem sendFriendRequest_blocked_by_declined_row :
    sendFriendRequest friendDB "alice" "bob" = friendDB
      ∧ ∀ f ∈ friendDB.friendships, f.status = "declined" := by
  decide

/-- Witness for claim C9 (amended): the guard refuses on the single
declined row and inserts a pending row on an empty friendship table. -/
theorem sendFriendRequest_single_row_guard_witness :
    sendFriendRequest friendDB "alice" "bob" = friendDB ∧
    ∃ f, (sendFriendRequest tradeDB "alice" "bob").friendships
        = tradeDB.friendships ++ [f]
      ∧ f.requester_id = "alice" ∧ f.addressee_id = "bob"
      ∧ f.status = "pending" :=
  ⟨(sendFriendRequest_single_row_guard friendDB "alice" "bob").1 (by decide),
    (sendFriendRequest_single_row_guard tradeDB "alice" "bob").2 (by decide)⟩

/-- Witness for claim C10: taking down Alice's Bike deletes the pending
Bike-for-Guitar request, the failed-deletion variant leaves requests
untouched, and the item row is updated in both cases. -/
theorem toggleItemAvailability_witness :
    (∀ r ∈ (toggleItemAvailability tradeDB "alice" "i1" true
        true).trade_requests,
        r.requester_item_id ≠ "i1" ∧ r.target_item_id ≠ "i1")
      ∧ (toggleItemAvailability tradeDB "alice" "i1" true
          false).trade_requests = tradeDB.trade_requests
      ∧ { bike with is_available := (!true), status :=
          (if (!true) then "available" else "unavailable") }
          ∈ (toggleItemAvailability tradeDB "alice" "i1" true true).items :=
  ⟨(toggleItemAvailability_deletes_requests_then_updates_item tradeDB
      "alice" "i1" true true).1 rfl,
    (toggleItemAvailability_deletes_requests_then_updates_item tradeDB
      "alice" "i1" true false).2.2.1 rfl,
    (toggleItemAvailability_deletes_requests_then_updates_item tradeDB
      "alice" "i1" true true).2.2.2 bike (by decide) rfl rfl⟩

end Goods4Goods
